import Mathlib

/-!
Shallow embedding of the anime-tracking backend (`src/main.py`) sufficient for
the watch-progress / leveling / favorites / achievements claims.

Modelling conventions:
* The SQLite database is a record of association lists; `UNIQUE(user_id, anime_id)`
  style constraints are reflected by upsert functions that update-in-place when a
  matching row exists.
* `CURRENT_TIMESTAMP` is modelled by an explicit `now : Nat` argument to each
  request handler.
* Levels and experience are natural numbers: the schema defaults are
  `level = 1`, `exp = 0` and every mutation in the code only adds non-negative
  amounts (or subtracts a threshold it has just been compared against).
* Episode counts come from the request body as Python ints, so they are `Int`.
* A handler returns `(DB, Except ApiError Resp)`; an `.error` outcome returns
  the database unchanged, mirroring the transaction rollback / early-raise in
  the source (every error path in the modelled handlers raises before commit,
  and the enclosing transaction is rolled back).
-/

namespace AnimeBackend

/-- HTTP-level error outcomes used by the modelled handlers.
`notFound` is a 404 `HTTPException`, `badRequest` a 400, `internal` a 500
(the catch-all for `sqlite3.Error`, including `IntegrityError` in
`unlock_achievement`, which has no dedicated 409 handler). -/
inductive ApiError where
  | notFound
  | badRequest
  | internal
  deriving DecidableEq, Repr

/-- The `class Status(str, Enum)` enum of `main.py`. -/
inductive Status where
  | planned
  | watching
  | completed
  | dropped
  deriving DecidableEq, Repr

/-- A row of the `users` table (the columns the claims touch). -/
structure User where
  level : Nat
  exp : Nat
  deriving DecidableEq, Repr

/-- A row of the `watch_progress` table (the columns the claims touch);
`UNIQUE(user_id, anime_id)`. -/
structure WPRow where
  userId : String
  animeId : String
  title : Option String
  imageUrl : Option String
  status : Status
  episodesWatched : Int
  totalEpisodes : Option Int
  lastWatchDate : Nat
  deriving DecidableEq, Repr

/-- A row of the `recent` table; `UNIQUE(user_id, anime_id)`. -/
structure RecentRow where
  userId : String
  animeId : String
  title : Option String
  imageUrl : Option String
  viewedAt : Nat
  deriving DecidableEq, Repr

/-- A row of the `favorites` table; `UNIQUE(user_id, anime_id)`. -/
structure FavRow where
  userId : String
  animeId : String
  title : Option String
  imageUrl : Option String
  createdAt : Nat
  deriving DecidableEq, Repr

/-- The database state: `users` keyed by `user_id`, `achievements` keyed by the
integer achievement id (value = `exp_reward`), `user_achievements` as
`(user_id, achievement_id)` pairs with `UNIQUE(user_id, achievement_id)`. -/
structure DB where
  users : List (String × User)
  watchProgress : List WPRow
  recent : List RecentRow
  favorites : List FavRow
  achievements : List (Nat × Nat)
  userAchievements : List (String × Nat)
  deriving DecidableEq, Repr

/-- SQL `COALESCE(a, b)` restricted to two arguments, and equally the Python
`x if x is not None else y` pattern used for title/image in
`update_watch_progress`. -/
def coalesce (a b : Option String) : Option String :=
  match a with
  | some x => some x
  | none => b

/-- The experience/level `UPDATE` used by the progress cascade
(`update_watch_progress`, lines 465-473) and by `unlock_achievement`
(lines 1599-1607):
`SET exp = exp + n, level = CASE WHEN exp + n >= level * 1000 THEN level + 1 ELSE level END`
— both column expressions read the old row values. -/
def singleStepAward (u : User) (n : Nat) : User :=
  { level := if u.level * 1000 ≤ u.exp + n then u.level + 1 else u.level
    exp := u.exp + n }

/-- The `while new_exp >= next_level_exp` rollover loop of `watch_episode`
(lines 1735-1738).  At each loop head the source maintains
`next_level_exp = 1000 * new_level`, so the loop state is just the pair
`(new_level, new_exp)`. -/
def expLoop (lvl e : Nat) : Nat × Nat :=
  if h : 1000 * lvl ≤ e then
    expLoop (lvl + 1) (e - 1000 * lvl)
  else
    (lvl, e)
termination_by 2 * e + (if lvl = 0 then 1 else 0)
decreasing_by
  rcases Nat.eq_zero_or_pos lvl with h0 | h0
  · subst h0
    simp
  · have h1 : lvl ≠ 0 := Nat.pos_iff_ne_zero.mp h0
    simp only [h1, if_false, Nat.add_eq_zero, and_false, if_neg, Nat.add_zero,
      Nat.succ_ne_zero, not_false_iff]
    omega

/-- The arithmetic part of `watch_episode`: add the fixed 100-point award,
then run the rollover loop. -/
def watchEpisodeCalc (lvl e : Nat) : Nat × Nat :=
  expLoop lvl (e + 100)

/-- Association-list lookup keyed by the first component, mirroring a
`SELECT ... WHERE key = ?` returning the first match. -/
def alookup {α β : Type} [DecidableEq α] : List (α × β) → α → Option β
  | [], _ => none
  | (k, v) :: rest, k' => if k = k' then some v else alookup rest k'

/-- An `UPDATE ... WHERE user_id = ?` on the `users` table: rewrites every row
whose key matches (a missing user makes this a no-op, as in SQL). -/
def updateUser (users : List (String × User)) (uid : String) (f : User → User) :
    List (String × User) :=
  users.map fun kv => if kv.1 = uid then (kv.1, f kv.2) else kv

/-- The `UPDATE users SET exp = exp + n, level = CASE ... END WHERE user_id = ?`
statement shared by the progress cascade and `unlock_achievement`. -/
def awardExp (users : List (String × User)) (uid : String) (n : Nat) :
    List (String × User) :=
  updateUser users uid (fun u => singleStepAward u n)

/-- Request body of `POST /watch-progress` (`class WatchProgress`). -/
structure ProgressIn where
  userId : String
  animeId : String
  title : Option String
  imageUrl : Option String
  status : Status
  episodesWatched : Int
  totalEpisodes : Option Int
  deriving DecidableEq, Repr

/-- Response of `POST /watch-progress`. -/
structure ProgressResp where
  message : String
  status : Status
  deriving DecidableEq, Repr

/-- Lines 424-426 of `main.py`:
`if progress.total_episodes and progress.total_episodes > 0 and
progress.episodes_watched >= progress.total_episodes: status = Status.COMPLETED`.
Python truthiness of the optional int is `total_episodes is not None and
total_episodes != 0`. -/
def effectiveStatus (p : ProgressIn) : Status :=
  match p.totalEpisodes with
  | some t =>
      if t ≠ 0 ∧ 0 < t ∧ t ≤ p.episodesWatched then Status.completed else p.status
  | none => p.status

/-- Row predicate for the `UNIQUE(user_id, anime_id)` key of `watch_progress`. -/
def wpMatch (uid aid : String) (r : WPRow) : Bool :=
  r.userId = uid && r.animeId = aid

/-- The query `SELECT ... FROM watch_progress WHERE user_id = ? AND anime_id = ?`. -/
def findWP (l : List WPRow) (uid aid : String) : Option WPRow :=
  l.find? (wpMatch uid aid)

/-- The `INSERT ... ON CONFLICT(user_id, anime_id) DO UPDATE` of
`update_watch_progress` (lines 429-449).  On conflict the row keeps its id and
gets `episodes_watched`, `total_episodes`, `status` overwritten,
`title = COALESCE(?, title)`, `image_url = COALESCE(?, image_url)` and a fresh
`last_watch_date`.  `wpUpdate` is the `DO UPDATE SET` row transformation. -/
def wpUpdate (ew : Int) (te : Option Int) (st : Status) (title imageUrl : Option String)
    (now : Nat) (r : WPRow) : WPRow :=
  { r with
    episodesWatched := ew
    totalEpisodes := te
    status := st
    title := coalesce title r.title
    imageUrl := coalesce imageUrl r.imageUrl
    lastWatchDate := now }

def upsertWP (l : List WPRow) (uid aid : String) (ew : Int) (te : Option Int)
    (st : Status) (title imageUrl : Option String) (now : Nat) : List WPRow :=
  match findWP l uid aid with
  | some _ =>
      l.map fun r =>
        if wpMatch uid aid r then wpUpdate ew te st title imageUrl now r else r
  | none => l ++ [⟨uid, aid, title, imageUrl, st, ew, te, now⟩]

/-- The `INSERT INTO recent ... ON CONFLICT(user_id, anime_id) DO UPDATE SET
viewed_at = CURRENT_TIMESTAMP` of the cascade (lines 455-462): on conflict only
the timestamp is refreshed; title/image keep their stored values. -/
def upsertRecent (l : List RecentRow) (uid aid : String)
    (title imageUrl : Option String) (now : Nat) : List RecentRow :=
  if l.any (fun r => r.userId = uid && r.animeId = aid) then
    l.map fun r =>
      if r.userId = uid && r.animeId = aid then { r with viewedAt := now } else r
  else
    l ++ [⟨uid, aid, title, imageUrl, now⟩]

/-- Handler for `POST /watch-progress` (`update_watch_progress`, lines 397-483).
Unknown user raises before any write; then the progress row is upserted; the
history/experience cascade (lines 451-473) runs only under its condition. -/
def updateWatchProgress (db : DB) (p : ProgressIn) (now : Nat) :
    DB × Except ApiError ProgressResp :=
  match alookup db.users p.userId with
  | none => (db, .error .notFound)
  | some _ =>
      let existing := findWP db.watchProgress p.userId p.animeId
      let title := coalesce p.title
        (match existing with | some r => r.title | none => none)
      let imageUrl := coalesce p.imageUrl
        (match existing with | some r => r.imageUrl | none => none)
      let oldStatus : Option Status := existing.map WPRow.status
      let oldEpisodes : Int :=
        match existing with | some r => r.episodesWatched | none => 0
      let status := effectiveStatus p
      let wp' := upsertWP db.watchProgress p.userId p.animeId p.episodesWatched
        p.totalEpisodes status title imageUrl now
      if (oldStatus ≠ some Status.completed ∧ status = Status.completed) ∨
          p.episodesWatched > oldEpisodes then
        ({ db with
            watchProgress := wp'
            recent := upsertRecent db.recent p.userId p.animeId title imageUrl now
            users := awardExp db.users p.userId 100 },
         .ok ⟨"Progress updated successfully", status⟩)
      else
        ({ db with watchProgress := wp' },
         .ok ⟨"Progress updated successfully", status⟩)

/-- Response of `POST /user/{user_id}/watch-episode`. -/
structure EpisodeResp where
  level : Nat
  exp : Nat
  nextLevelExp : Nat
  deriving DecidableEq, Repr

/-- Handler for `POST /user/{user_id}/watch-episode` (`watch_episode`, lines 1711-1761).
The returned `next_level_exp` is `1000 * new_level` for the final level: the
source recomputes `next_level_exp = 1000 * new_level` on every loop iteration
and initialises it to `1000 * current_level`, so at loop exit it always equals
`1000 *` the final level. -/
def watchEpisode (db : DB) (uid : String) : DB × Except ApiError EpisodeResp :=
  match alookup db.users uid with
  | none => (db, .error .notFound)
  | some u =>
      let r := watchEpisodeCalc u.level u.exp
      ({ db with users := updateUser db.users uid (fun _ => ⟨r.1, r.2⟩) },
       .ok ⟨r.1, r.2, 1000 * r.1⟩)

/-- Response of `POST /user/{user_id}/achievements/{achievement_id}`. -/
structure UnlockResp where
  expGained : Nat
  deriving DecidableEq, Repr

/-- Handler for `POST /user/{user_id}/achievements/{achievement_id}` (`unlock_achievement`,
lines 1584-1612).  A duplicate `(user_id, achievement_id)` violates the UNIQUE
constraint: `sqlite3.IntegrityError` is caught by the bare `except
sqlite3.Error` handler and surfaces as a 500, with no further statement run and
nothing committed.  A missing achievement makes `fetchone()[0]` raise before
commit, also surfacing as a server error.  No user-existence check is made: the
exp `UPDATE` simply matches no row. -/
def unlockAchievement (db : DB) (uid : String) (aid : Nat) :
    DB × Except ApiError UnlockResp :=
  if db.userAchievements.any (fun r => r.1 = uid && r.2 = aid) then
    (db, .error .internal)
  else
    match alookup db.achievements aid with
    | none => (db, .error .internal)
    | some reward =>
        ({ db with
            userAchievements := db.userAchievements ++ [(uid, aid)]
            users := awardExp db.users uid reward },
         .ok ⟨reward⟩)

/-- Request body of the favorites endpoints (`class FavoriteAction`).  The
`action` field is kept as a string because the handlers re-validate it
themselves (`if data.action not in ["add", "remove"]`). -/
structure FavIn where
  animeId : String
  action : String
  title : Option String
  imageUrl : Option String
  deriving DecidableEq, Repr

/-- Response of the favorites endpoints: the action echoed back, the user's
favorites list (stored order; the source orders by `created_at DESC`, which no
claim depends on) and its length. -/
structure FavResp where
  action : String
  count : Nat
  favorites : List FavRow
  deriving DecidableEq, Repr

/-- Row predicate for the `UNIQUE(user_id, anime_id)` key of `favorites`. -/
def favMatch (uid aid : String) (r : FavRow) : Bool :=
  r.userId = uid && r.animeId = aid

/-- The shared "add" branch of both favorites handlers: update title/image and
`created_at` when the `(user, anime)` row exists, else insert it. -/
def favAdd (l : List FavRow) (uid aid : String) (title imageUrl : Option String)
    (now : Nat) : List FavRow :=
  if l.any (favMatch uid aid) then
    l.map fun r =>
      if favMatch uid aid r then
        { r with title := title, imageUrl := imageUrl, createdAt := now }
      else r
  else
    l ++ [⟨uid, aid, title, imageUrl, now⟩]

/-- The favorites list returned after a successful toggle:
`SELECT ... FROM favorites WHERE user_id = ?`. -/
def favList (l : List FavRow) (uid : String) : List FavRow :=
  l.filter fun r => r.userId = uid

/-- Handler for `POST /favorites/{user_id}` (`update_favorites`, lines 704-836).
Unknown user → 404; bad action → 400; "add" without a (non-empty) title or
anime id → 400 (Python truthiness: `not data.title or not data.animeId`);
"remove" computes `cursor.rowcount` from the `DELETE` and raises 404 when it
is 0, before commit — the dedicated `except HTTPException: conn.rollback();
raise` handler keeps the 404 and rolls the transaction back. -/
def updateFavorites (db : DB) (uid : String) (d : FavIn) (now : Nat) :
    DB × Except ApiError FavResp :=
  match alookup db.users uid with
  | none => (db, .error .notFound)
  | some _ =>
      if d.action = "add" then
        match d.title with
        | none => (db, .error .badRequest)
        | some t =>
            if t = "" ∨ d.animeId = "" then (db, .error .badRequest)
            else
              let favs' := favAdd db.favorites uid d.animeId d.title d.imageUrl now
              ({ db with favorites := favs' },
               .ok ⟨d.action, (favList favs' uid).length, favList favs' uid⟩)
      else if d.action = "remove" then
        let rowcount := db.favorites.countP fun r => favMatch uid d.animeId r
        if rowcount = 0 then (db, .error .notFound)
        else
          let favs' := db.favorites.filter fun r => !favMatch uid d.animeId r
          ({ db with favorites := favs' },
           .ok ⟨d.action, (favList favs' uid).length, favList favs' uid⟩)
      else (db, .error .badRequest)

/-- Handler for `POST /favorites/{user_id}/manage` (`manage_favorites`, lines 1274-1402).
Same contract as `update_favorites`: the duplicated handler tracks
`result_status = cursor.rowcount > 0` and raises 404 for a "remove" that
deleted nothing, again rolled back and re-raised by its
`except HTTPException` clause. -/
def manageFavorites (db : DB) (uid : String) (d : FavIn) (now : Nat) :
    DB × Except ApiError FavResp :=
  match alookup db.users uid with
  | none => (db, .error .notFound)
  | some _ =>
      if d.action = "add" then
        match d.title with
        | none => (db, .error .badRequest)
        | some t =>
            if t = "" ∨ d.animeId = "" then (db, .error .badRequest)
            else
              let favs' := favAdd db.favorites uid d.animeId d.title d.imageUrl now
              ({ db with favorites := favs' },
               .ok ⟨d.action, (favList favs' uid).length, favList favs' uid⟩)
      else if d.action = "remove" then
        let resultStatus :=
          0 < db.favorites.countP fun r => favMatch uid d.animeId r
        if resultStatus then
          let favs' := db.favorites.filter fun r => !favMatch uid d.animeId r
          ({ db with favorites := favs' },
           .ok ⟨d.action, (favList favs' uid).length, favList favs' uid⟩)
        else (db, .error .notFound)
      else (db, .error .badRequest)

/-- The `stats` object of `GET /watch-progress/{user_id}`. -/
structure WPStats where
  totalEpisodesWatched : Int
  totalTimeSpent : Int
  averageRating : Nat
  completedCount : Nat
  watchingCount : Nat
  deriving DecidableEq, Repr

/-- Response of `GET /watch-progress/{user_id}`: the completed and in-progress
rows (the source shapes them into JSON objects and orders by
`last_watch_date DESC`; the rows themselves carry all the projected fields)
plus aggregate stats. -/
structure WPListsResp where
  completed : List WPRow
  inProgress : List WPRow
  stats : WPStats
  deriving DecidableEq, Repr

/-- Handler for `GET /watch-progress/{user_id}` (`get_user_watch_progress`, lines 485-572).
A missing user returns the empty payload of lines 493-503 — not a 404.  For an
existing user, `inProgress` are the user's rows with status `watching`,
`completed` those with status `completed`; `totalEpisodesWatched` is
`SUM(episodes_watched)` over all the user's rows (`or 0` when NULL, i.e. no
rows), `totalTimeSpent` is that sum times 24*60, `averageRating` is the
hard-coded 0, and the two counts are `COUNT(DISTINCT anime_id)` per status —
equal to the row counts because `(user_id, anime_id)` is unique. -/
def getUserWatchProgress (db : DB) (uid : String) : WPListsResp :=
  match alookup db.users uid with
  | none => ⟨[], [], ⟨0, 0, 0, 0, 0⟩⟩
  | some _ =>
      let rows := db.watchProgress.filter fun r => r.userId = uid
      let inProg := rows.filter fun r => r.status = Status.watching
      let comp := rows.filter fun r => r.status = Status.completed
      let total := (rows.map WPRow.episodesWatched).sum
      ⟨comp, inProg, ⟨total, total * 24 * 60, 0, comp.length, inProg.length⟩⟩

/-- The `title` local of `update_watch_progress` (line 418): the incoming title
if present, else the stored one, else `NULL`. -/
def progressTitle (db : DB) (p : ProgressIn) : Option String :=
  coalesce p.title
    (match findWP db.watchProgress p.userId p.animeId with
      | some r => r.title
      | none => none)

/-- The `image_url` local of `update_watch_progress` (line 419). -/
def progressImage (db : DB) (p : ProgressIn) : Option String :=
  coalesce p.imageUrl
    (match findWP db.watchProgress p.userId p.animeId with
      | some r => r.imageUrl
      | none => none)

/-- The cascade condition as the specification states it: the previously stored
status (none when no prior row) is not `completed` and the effective status is
`completed`, or the newly reported episodes-watched count strictly exceeds the
previously stored one (taken as 0 when no prior row exists).  Stated from the
spec's words, to be compared with the condition `update_watch_progress`
evaluates on lines 452-453. -/
def specCascadeCondition (db : DB) (p : ProgressIn) : Prop :=
  (Option.map WPRow.status (findWP db.watchProgress p.userId p.animeId) ≠
      some Status.completed ∧
    effectiveStatus p = Status.completed) ∨
  p.episodesWatched >
    (match findWP db.watchProgress p.userId p.animeId with
      | some r => r.episodesWatched
      | none => 0)

instance (db : DB) (p : ProgressIn) : Decidable (specCascadeCondition db p) := by
  unfold specCascadeCondition
  infer_instance

/-! ### Helper lemmas -/

lemma expLoop_step {lvl e : Nat} (h : 1000 * lvl ≤ e) :
    expLoop lvl e = expLoop (lvl + 1) (e - 1000 * lvl) := by
  rw [expLoop]
  simp [h]

lemma expLoop_done {lvl e : Nat} (h : e < 1000 * lvl) :
    expLoop lvl e = (lvl, e) := by
  rw [expLoop]
  simp [Nat.not_le.mpr h]

lemma expLoop_snd_lt (lvl e : Nat) : (expLoop lvl e).2 < 1000 * (expLoop lvl e).1 := by
  induction lvl, e using expLoop.induct with
  | case1 lvl e h ih =>
      rw [expLoop_step h]
      exact ih
  | case2 lvl e h =>
      rw [expLoop_done (Nat.not_le.mp h)]
      exact Nat.not_le.mp h

lemma alookup_updateUser (users : List (String × User)) (uid : String) (f : User → User) :
    alookup (updateUser users uid f) uid = (alookup users uid).map f := by
  induction users with
  | nil => rfl
  | cons kv rest ih =>
      simp only [updateUser, List.map_cons] at ih ⊢
      by_cases h : kv.1 = uid
      · rw [if_pos h]
        simp [alookup, h]
      · rw [if_neg h]
        simp only [alookup, if_neg h]
        exact ih

lemma wpMatch_iff {uid aid : String} {r : WPRow} :
    wpMatch uid aid r = true ↔ r.userId = uid ∧ r.animeId = aid := by
  simp [wpMatch]

lemma wpMatch_wpUpdate (uid aid : String) (ew : Int) (te : Option Int) (st : Status)
    (ti im : Option String) (now : Nat) (r : WPRow) :
    wpMatch uid aid (wpUpdate ew te st ti im now r) = wpMatch uid aid r := by
  simp [wpMatch, wpUpdate]

lemma findWP_some {l : List WPRow} {uid aid : String} {r : WPRow}
    (h : findWP l uid aid = some r) :
    r ∈ l ∧ r.userId = uid ∧ r.animeId = aid :=
  ⟨List.mem_of_find?_eq_some h, wpMatch_iff.mp (List.find?_some h)⟩

lemma findWP_upsertWP (l : List WPRow) (uid aid : String) (ew : Int) (te : Option Int)
    (st : Status) (ti im : Option String) (now : Nat) :
    ∃ r, findWP (upsertWP l uid aid ew te st ti im now) uid aid = some r ∧
      r.userId = uid ∧ r.animeId = aid ∧ r.status = st ∧ r.episodesWatched = ew := by
  unfold upsertWP
  cases hf : findWP l uid aid with
  | none =>
      refine ⟨⟨uid, aid, ti, im, st, ew, te, now⟩, ?_, rfl, rfl, rfl, rfl⟩
      unfold findWP at hf ⊢
      rw [List.find?_append, hf]
      simp [wpMatch]
  | some r0 =>
      refine ⟨wpUpdate ew te st ti im now r0, ?_, ?_, ?_, rfl, rfl⟩
      · unfold findWP at hf ⊢
        rw [List.find?_map]
        have hcomp :
            (wpMatch uid aid ∘ fun r =>
              if wpMatch uid aid r then wpUpdate ew te st ti im now r else r) =
            wpMatch uid aid := by
          funext r
          by_cases h : wpMatch uid aid r
          · simp [h, wpMatch_wpUpdate]
          · simp [h]
        rw [hcomp, hf]
        have hr0 : wpMatch uid aid r0 = true := List.find?_some hf
        simp [hr0]
      · have := (findWP_some hf).2.1
        simp [wpUpdate, this]
      · have := (findWP_some hf).2.2
        simp [wpUpdate, this]

lemma upsertWP_all (l : List WPRow) (uid aid : String) (ew : Int) (te : Option Int)
    (st : Status) (ti im : Option String) (now : Nat) :
    ∀ r ∈ upsertWP l uid aid ew te st ti im now, r.userId = uid → r.animeId = aid →
      r.status = st ∧ r.episodesWatched = ew ∧ r.lastWatchDate = now := by
  unfold upsertWP
  cases hf : findWP l uid aid with
  | none =>
      intro r hr hru hra
      rcases List.mem_append.mp hr with h | h
      · exfalso
        unfold findWP at hf
        exact (List.find?_eq_none.mp hf) r h (wpMatch_iff.mpr ⟨hru, hra⟩)
      · simp only [List.mem_singleton] at h
        subst h
        exact ⟨rfl, rfl, rfl⟩
  | some r0 =>
      intro r hr hru hra
      rcases List.mem_map.mp hr with ⟨s, hs, rfl⟩
      by_cases h : wpMatch uid aid s
      · simp [h, wpUpdate]
      · simp only [if_neg h] at hru hra ⊢
        exact absurd (wpMatch_iff.mpr ⟨hru, hra⟩) h

lemma upsertWP_length_of_found {l : List WPRow} {uid aid : String} {r0 : WPRow}
    (hf : findWP l uid aid = some r0) (ew : Int) (te : Option Int) (st : Status)
    (ti im : Option String) (now : Nat) :
    (upsertWP l uid aid ew te st ti im now).length = l.length := by
  unfold upsertWP
  rw [hf]
  exact List.length_map _ _

lemma coalesce_none (a : Option String) : coalesce a none = a := by
  cases a <;> rfl

lemma coalesce_coalesce (a b : Option String) : coalesce (coalesce a b) b = coalesce a b := by
  cases a with
  | some x => rfl
  | none => cases b <;> rfl

lemma effectiveStatus_of_total {p : ProgressIn} {t : Int} (ht : p.totalEpisodes = some t)
    (h0 : 0 < t) (hle : t ≤ p.episodesWatched) : effectiveStatus p = Status.completed := by
  simp only [effectiveStatus, ht]
  rw [if_pos ⟨ne_of_gt h0, h0, hle⟩]

lemma effectiveStatus_verbatim {p : ProgressIn}
    (hn : ¬ ∃ t, p.totalEpisodes = some t ∧ 0 < t ∧ t ≤ p.episodesWatched) :
    effectiveStatus p = p.status := by
  cases hte : p.totalEpisodes with
  | none => simp [effectiveStatus, hte]
  | some t =>
      simp only [effectiveStatus, hte]
      rw [if_neg]
      rintro ⟨h1, h2, h3⟩
      exact hn ⟨t, hte, h2, h3⟩

lemma updateWatchProgress_ok {db : DB} {p : ProgressIn} (now : Nat) {u : User}
    (hu : alookup db.users p.userId = some u) :
    (updateWatchProgress db p now).2 =
      .ok ⟨"Progress updated successfully", effectiveStatus p⟩ := by
  simp only [updateWatchProgress, hu]
  split <;> rfl

lemma updateWatchProgress_wp {db : DB} {p : ProgressIn} (now : Nat) {u : User}
    (hu : alookup db.users p.userId = some u) :
    (updateWatchProgress db p now).1.watchProgress =
      upsertWP db.watchProgress p.userId p.animeId p.episodesWatched p.totalEpisodes
        (effectiveStatus p) (progressTitle db p) (progressImage db p) now := by
  simp only [updateWatchProgress, hu]
  split <;> rfl

lemma updateWatchProgress_users {db : DB} {p : ProgressIn} (now : Nat) {u : User}
    (hu : alookup db.users p.userId = some u) :
    (updateWatchProgress db p now).1.users = awardExp db.users p.userId 100 ∨
    (updateWatchProgress db p now).1.users = db.users := by
  simp only [updateWatchProgress, hu]
  split
  · exact Or.inl rfl
  · exact Or.inr rfl

lemma updateWatchProgress_cascadeSpec (db : DB) (p : ProgressIn) (now : Nat) (u : User)
    (hu : alookup db.users p.userId = some u) :
    (specCascadeCondition db p →
      (updateWatchProgress db p now).1.recent =
        upsertRecent db.recent p.userId p.animeId (progressTitle db p)
          (progressImage db p) now ∧
      (updateWatchProgress db p now).1.users = awardExp db.users p.userId 100) ∧
    (¬ specCascadeCondition db p →
      (updateWatchProgress db p now).1.recent = db.recent ∧
      (updateWatchProgress db p now).1.users = db.users) := by
  constructor
  · intro hc
    simp only [updateWatchProgress, hu]
    split
    · exact ⟨rfl, rfl⟩
    · next h => exact absurd hc h
  · intro hc
    simp only [updateWatchProgress, hu]
    split
    · next h => exact absurd h hc
    · exact ⟨rfl, rfl⟩

lemma updateWatchProgress_mapPreserve (uid aid : String) (ew : Int) (te : Option Int)
    (st : Status) (ti im : Option String) (now : Nat) :
    (wpMatch uid aid ∘ fun r =>
      if wpMatch uid aid r then wpUpdate ew te st ti im now r else r) =
    wpMatch uid aid := by
  funext r
  by_cases h : wpMatch uid aid r
  · simp [h, wpMatch_wpUpdate]
  · simp [h]

/-! ### Claim theorems -/

/-- Claim C1: for every `POST /watch-progress` call on an existing user, the
status stored in the `watch_progress` row and returned in the response is the
effective status, which is `completed` whenever `total_episodes` is supplied,
positive, and `episodes_watched >= total_episodes` — regardless of the
caller-supplied status — and is the caller-supplied status verbatim
otherwise. -/
theorem watchProgress_status_derivation (db : DB) (p : ProgressIn) (now : Nat) (u : User)
    (hu : alookup db.users p.userId = some u) :
    (updateWatchProgress db p now).2 =
      .ok ⟨"Progress updated successfully", effectiveStatus p⟩ ∧
    (∃ r ∈ (updateWatchProgress db p now).1.watchProgress,
      r.userId = p.userId ∧ r.animeId = p.animeId ∧ r.status = effectiveStatus p) ∧
    (∀ r ∈ (updateWatchProgress db p now).1.watchProgress,
      r.userId = p.userId → r.animeId = p.animeId → r.status = effectiveStatus p) ∧
    (∀ t, p.totalEpisodes = some t → 0 < t → t ≤ p.episodesWatched →
      effectiveStatus p = Status.completed) ∧
    ((¬ ∃ t, p.totalEpisodes = some t ∧ 0 < t ∧ t ≤ p.episodesWatched) →
      effectiveStatus p = p.status) := by
  refine ⟨updateWatchProgress_ok now hu, ?_, ?_,
    fun t ht h0 hle => effectiveStatus_of_total ht h0 hle, effectiveStatus_verbatim⟩
  · rw [updateWatchProgress_wp now hu]
    obtain ⟨r, hf, h1, h2, h3, _⟩ := findWP_upsertWP db.watchProgress p.userId p.animeId
      p.episodesWatched p.totalEpisodes (effectiveStatus p) (progressTitle db p)
      (progressImage db p) now
    exact ⟨r, List.mem_of_find?_eq_some hf, h1, h2, h3⟩
  · rw [updateWatchProgress_wp now hu]
    intro r hr hru hra
    exact (upsertWP_all _ _ _ _ _ _ _ _ _ r hr hru hra).1

/-- Witness for C1: a fresh user upserting 12 of 12 episodes with
caller-supplied status `watching` gets a `completed` response. -/
theorem watchProgress_status_derivation_witness :
    alookup (DB.mk [("u", ⟨1, 0⟩)] [] [] [] [] []).users "u" = some ⟨1, 0⟩ ∧
    (updateWatchProgress (DB.mk [("u", ⟨1, 0⟩)] [] [] [] [] [])
        ⟨"u", "a", none, none, Status.watching, 12, some 12⟩ 3).2 =
      .ok ⟨"Progress updated successfully", Status.completed⟩ :=
  ⟨by decide,
    (watchProgress_status_derivation (DB.mk [("u", ⟨1, 0⟩)] [] [] [] [] [])
      ⟨"u", "a", none, none, Status.watching, 12, some 12⟩ 3 ⟨1, 0⟩ (by decide)).1⟩

/-- Claim C2: for every `POST /watch-progress` upsert on an existing user, the
history/experience cascade — the recent-marker insert-or-refresh plus the
100-point experience award — fires if and only if the spec's condition holds:
(a) the previously stored status was not `completed` and the effective status
is `completed`, or (b) the newly reported `episodes_watched` strictly exceeds
the previously stored count (0 when no prior row); either disjunct alone
suffices. -/
theorem watchProgress_cascade_iff (db : DB) (p : ProgressIn) (now : Nat) (u : User)
    (hu : alookup db.users p.userId = some u) :
    (specCascadeCondition db p →
      (updateWatchProgress db p now).1.recent =
        upsertRecent db.recent p.userId p.animeId (progressTitle db p)
          (progressImage db p) now ∧
      (updateWatchProgress db p now).1.users = awardExp db.users p.userId 100) ∧
    (¬ specCascadeCondition db p →
      (updateWatchProgress db p now).1.recent = db.recent ∧
      (updateWatchProgress db p now).1.users = db.users) :=
  updateWatchProgress_cascadeSpec db p now u hu

/-- Witness for C2: a first-time upsert with 3 episodes watched satisfies the
condition via disjunct (b) alone and produces the recent marker and the
100-point award. -/
theorem watchProgress_cascade_iff_witness :
    alookup (DB.mk [("u", ⟨1, 0⟩)] [] [] [] [] []).users "u" = some ⟨1, 0⟩ ∧
    specCascadeCondition (DB.mk [("u", ⟨1, 0⟩)] [] [] [] [] [])
      ⟨"u", "a", some "T", none, Status.watching, 3, none⟩ ∧
    ((updateWatchProgress (DB.mk [("u", ⟨1, 0⟩)] [] [] [] [] [])
        ⟨"u", "a", some "T", none, Status.watching, 3, none⟩ 5).1.recent =
        [⟨"u", "a", some "T", none, 5⟩] ∧
      (updateWatchProgress (DB.mk [("u", ⟨1, 0⟩)] [] [] [] [] [])
        ⟨"u", "a", some "T", none, Status.watching, 3, none⟩ 5).1.users =
        [("u", ⟨1, 100⟩)]) :=
  ⟨by decide, by decide,
    (watchProgress_cascade_iff (DB.mk [("u", ⟨1, 0⟩)] [] [] [] [] [])
      ⟨"u", "a", some "T", none, Status.watching, 3, none⟩ 5 ⟨1, 0⟩ (by decide)).1
      (by decide)⟩

/-- Claim C3: the single-step leveling rule (used by the progress cascade and
by achievement unlock): when `E + N >= L * 1000` the stored level becomes
exactly `L + 1` and the stored experience the raw sum `E + N`, not reduced by
the threshold; in particular level 1, exp 950 awarded 100 yields level 2,
exp 1050. -/
theorem singleStep_leveling (L E N : Nat) (h : L * 1000 ≤ E + N) :
    singleStepAward ⟨L, E⟩ N = ⟨L + 1, E + N⟩ ∧
    (∀ (users : List (String × User)) (uid : String),
      alookup users uid = some ⟨L, E⟩ →
      alookup (awardExp users uid N) uid = some ⟨L + 1, E + N⟩) ∧
    singleStepAward ⟨1, 950⟩ 100 = ⟨2, 1050⟩ := by
  have h1 : singleStepAward ⟨L, E⟩ N = ⟨L + 1, E + N⟩ := by
    simp [singleStepAward, h]
  refine ⟨h1, ?_, by decide⟩
  intro users uid hu
  rw [awardExp, alookup_updateUser, hu]
  simp [h1]

/-- Witness for C3 at level 1, exp 950, award 100. -/
theorem singleStep_leveling_witness :
    1 * 1000 ≤ 950 + 100 ∧
    (singleStepAward ⟨1, 950⟩ 100 = ⟨1 + 1, 950 + 100⟩ ∧
      (∀ (users : List (String × User)) (uid : String),
        alookup users uid = some ⟨1, 950⟩ →
        alookup (awardExp users uid 100) uid = some ⟨1 + 1, 950 + 100⟩) ∧
      singleStepAward ⟨1, 950⟩ 100 = ⟨2, 1050⟩) :=
  ⟨by decide, singleStep_leveling 1 950 100 (by decide)⟩

/-- Claim C4: `POST /user/{user_id}/watch-episode` on an existing user adds 100
points and then rolls the level over in a loop: while accumulated experience is
at least `1000 * level` the level increments and the experience drops by that
threshold, recomputed each iteration; the result is stored and returned, and in
particular level 1, exp 950 yields level 2, exp 50. -/
theorem watchEpisode_multiStep_rollover (db : DB) (uid : String) (u : User)
    (hu : alookup db.users uid = some u) :
    ((watchEpisode db uid).2 =
        .ok ⟨(watchEpisodeCalc u.level u.exp).1, (watchEpisodeCalc u.level u.exp).2,
          1000 * (watchEpisodeCalc u.level u.exp).1⟩ ∧
      alookup (watchEpisode db uid).1.users uid =
        some ⟨(watchEpisodeCalc u.level u.exp).1, (watchEpisodeCalc u.level u.exp).2⟩) ∧
    (∀ l e, watchEpisodeCalc l e = expLoop l (e + 100)) ∧
    (∀ l e, 1000 * l ≤ e → expLoop l e = expLoop (l + 1) (e - 1000 * l)) ∧
    (∀ l e, e < 1000 * l → expLoop l e = (l, e)) ∧
    watchEpisodeCalc 1 950 = (2, 50) := by
  refine ⟨⟨?_, ?_⟩, fun l e => rfl, fun l e h => expLoop_step h,
    fun l e h => expLoop_done h, ?_⟩
  · simp only [watchEpisode, hu]
  · simp only [watchEpisode, hu]
    rw [alookup_updateUser, hu]
    rfl
  · rw [watchEpisodeCalc]
    norm_num
    rw [expLoop_step (by norm_num)]
    norm_num
    rw [expLoop_done (by norm_num)]

/-- Witness for C4 at level 1, exp 950. -/
theorem watchEpisode_multiStep_rollover_witness :
    alookup (DB.mk [("u", ⟨1, 950⟩)] [] [] [] [] []).users "u" = some ⟨1, 950⟩ ∧
    (((watchEpisode (DB.mk [("u", ⟨1, 950⟩)] [] [] [] [] []) "u").2 =
        .ok ⟨(watchEpisodeCalc 1 950).1, (watchEpisodeCalc 1 950).2,
          1000 * (watchEpisodeCalc 1 950).1⟩ ∧
      alookup (watchEpisode (DB.mk [("u", ⟨1, 950⟩)] [] [] [] [] []) "u").1.users "u" =
        some ⟨(watchEpisodeCalc 1 950).1, (watchEpisodeCalc 1 950).2⟩) ∧
    (∀ l e, watchEpisodeCalc l e = expLoop l (e + 100)) ∧
    (∀ l e, 1000 * l ≤ e → expLoop l e = expLoop (l + 1) (e - 1000 * l)) ∧
    (∀ l e, e < 1000 * l → expLoop l e = (l, e)) ∧
    watchEpisodeCalc 1 950 = (2, 50)) :=
  ⟨by decide, watchEpisode_multiStep_rollover _ "u" ⟨1, 950⟩ (by decide)⟩

/-- Counterexample for C5: the claim says title/image are "never overwritten
with empty values", but an incoming empty-string title is not `None`, so it
passes both the Python `is not None` check and SQL `COALESCE`, and overwrites a
previously stored non-empty title. -/
theorem watchProgress_emptyString_overwrites :
    (DB.mk [("u", ⟨1, 0⟩)] [⟨"u", "a", some "T", some "I", Status.watching, 1, none, 0⟩]
        [] [] [] []).watchProgress.map WPRow.title = [some "T"] ∧
    ((updateWatchProgress
        (DB.mk [("u", ⟨1, 0⟩)] [⟨"u", "a", some "T", some "I", Status.watching, 1, none, 0⟩]
          [] [] [] [])
        ⟨"u", "a", some "", none, Status.watching, 1, none⟩ 7).1.watchProgress.map
      WPRow.title) = [some ""] := by
  constructor <;> decide

/-- Claim C5 (amended): for every `POST /watch-progress` upsert on an existing
user whose `(user, anime)` progress row is unique, the record is created when
absent and updated in place otherwise (no duplicate row); on update the stored
title and image keep their previously stored values when the incoming values
are absent (`None`), while a present incoming value — including the empty
string — is stored verbatim. -/
theorem watchProgress_upsert_coalesce (db : DB) (p : ProgressIn) (now : Nat) (u : User)
    (hu : alookup db.users p.userId = some u)
    (huniq : db.watchProgress.countP (wpMatch p.userId p.animeId) ≤ 1) :
    (findWP db.watchProgress p.userId p.animeId = none →
      (updateWatchProgress db p now).1.watchProgress =
        db.watchProgress ++ [⟨p.userId, p.animeId, p.title, p.imageUrl, effectiveStatus p,
          p.episodesWatched, p.totalEpisodes, now⟩]) ∧
    (∀ r0, findWP db.watchProgress p.userId p.animeId = some r0 →
      (updateWatchProgress db p now).1.watchProgress.length = db.watchProgress.length ∧
      (updateWatchProgress db p now).1.watchProgress.countP (wpMatch p.userId p.animeId) = 1 ∧
      ∃ s ∈ (updateWatchProgress db p now).1.watchProgress,
        s.userId = p.userId ∧ s.animeId = p.animeId ∧
        s.title = coalesce p.title r0.title ∧ s.imageUrl = coalesce p.imageUrl r0.imageUrl ∧
        (p.title = none → s.title = r0.title) ∧
        (p.imageUrl = none → s.imageUrl = r0.imageUrl)) := by
  constructor
  · intro hf
    have ht : progressTitle db p = p.title := by
      simp only [progressTitle, hf]
      exact coalesce_none p.title
    have hi : progressImage db p = p.imageUrl := by
      simp only [progressImage, hf]
      exact coalesce_none p.imageUrl
    rw [updateWatchProgress_wp now hu]
    simp only [upsertWP, hf, ht, hi]
  · intro r0 hf
    have hr0 := findWP_some hf
    have hr0m : wpMatch p.userId p.animeId r0 = true := List.find?_some hf
    have hpt : progressTitle db p = coalesce p.title r0.title := by
      simp only [progressTitle, hf]
    have hpi : progressImage db p = coalesce p.imageUrl r0.imageUrl := by
      simp only [progressImage, hf]
    rw [updateWatchProgress_wp now hu]
    refine ⟨upsertWP_length_of_found hf _ _ _ _ _ _, ?_, ?_⟩
    · simp only [upsertWP, hf]
      rw [List.countP_map, updateWatchProgress_mapPreserve]
      have hpos : 0 < db.watchProgress.countP (wpMatch p.userId p.animeId) :=
        List.countP_pos_iff.mpr ⟨r0, hr0.1, hr0m⟩
      omega
    · refine ⟨wpUpdate p.episodesWatched p.totalEpisodes (effectiveStatus p)
        (progressTitle db p) (progressImage db p) now r0, ?_, ?_, ?_, ?_, ?_, ?_, ?_⟩
      · simp only [upsertWP, hf]
        have heq : (fun r => if wpMatch p.userId p.animeId r then
            wpUpdate p.episodesWatched p.totalEpisodes (effectiveStatus p)
              (progressTitle db p) (progressImage db p) now r else r) r0 =
            wpUpdate p.episodesWatched p.totalEpisodes (effectiveStatus p)
              (progressTitle db p) (progressImage db p) now r0 := by
          simp [hr0m]
        exact heq ▸ List.mem_map_of_mem _ hr0.1
      · simp [wpUpdate, hr0.2.1]
      · simp [wpUpdate, hr0.2.2]
      · simp [wpUpdate, hpt, coalesce_coalesce]
      · simp [wpUpdate, hpi, coalesce_coalesce]
      · intro hnone
        simp only [wpUpdate, hpt, coalesce_coalesce, hnone]
        cases h : r0.title <;> simp [coalesce, h]
      · intro hnone
        simp only [wpUpdate, hpi, coalesce_coalesce, hnone]
        cases h : r0.imageUrl <;> simp [coalesce, h]

/-- Witness for C5 (amended): an update with absent title keeps the stored
title "T". -/
theorem watchProgress_upsert_coalesce_witness :
    alookup (DB.mk [("u", ⟨1, 0⟩)]
        [⟨"u", "a", some "T", some "I", Status.watching, 1, none, 0⟩] [] [] [] []).users "u" =
      some ⟨1, 0⟩ ∧
    (DB.mk [("u", ⟨1, 0⟩)] [⟨"u", "a", some "T", some "I", Status.watching, 1, none, 0⟩]
        [] [] [] []).watchProgress.countP (wpMatch "u" "a") ≤ 1 ∧
    ∃ s ∈ (updateWatchProgress
        (DB.mk [("u", ⟨1, 0⟩)] [⟨"u", "a", some "T", some "I", Status.watching, 1, none, 0⟩]
          [] [] [] [])
        ⟨"u", "a", none, none, Status.watching, 2, none⟩ 7).1.watchProgress,
      s.userId = "u" ∧ s.animeId = "a" ∧ s.title = some "T" := by
  refine ⟨by decide, by decide, ?_⟩
  obtain ⟨-, -, s, hmem, h1, h2, h3, -⟩ :=
    (watchProgress_upsert_coalesce
      (DB.mk [("u", ⟨1, 0⟩)] [⟨"u", "a", some "T", some "I", Status.watching, 1, none, 0⟩]
        [] [] [] [])
      ⟨"u", "a", none, none, Status.watching, 2, none⟩ 7 ⟨1, 0⟩ (by decide) (by decide)).2
      ⟨"u", "a", some "T", some "I", Status.watching, 1, none, 0⟩ (by decide)
  exact ⟨s, hmem, h1, h2, h3⟩

/-- Counterexample for C6: after two identical upserts at times 5 and 9, the
recent marker's `viewed_at` is still 5 — the second call does NOT refresh it,
because the recent upsert sits inside the skipped cascade block. -/
theorem watchProgress_idempotent_cex :
    ((updateWatchProgress
        (updateWatchProgress (DB.mk [("u", ⟨1, 0⟩)] [] [] [] [] [])
          ⟨"u", "a", some "T", none, Status.watching, 3, none⟩ 5).1
        ⟨"u", "a", some "T", none, Status.watching, 3, none⟩ 9).1.recent.map
      RecentRow.viewedAt = [5]) ∧
    ((updateWatchProgress (DB.mk [("u", ⟨1, 0⟩)] [] [] [] [] [])
        ⟨"u", "a", some "T", none, Status.watching, 3, none⟩ 5).1.recent.map
      RecentRow.viewedAt = [5]) := by
  constructor <;> decide

/-- Claim C6 (amended): repeating the same progress upsert with identical
status/episodes does not fire the cascade a second time: the second call leaves
the `recent` table entirely unchanged (no duplicate row, and no `viewed_at`
refresh — the recent-marker refresh is inside the skipped cascade) and the
users table unchanged (no second award); only the `watch_progress` row is
rewritten in place, refreshing its `last_watch_date`. -/
theorem watchProgress_repeat_noCascade (db : DB) (p : ProgressIn) (t1 t2 : Nat) (u : User)
    (hu : alookup db.users p.userId = some u) :
    ((updateWatchProgress (updateWatchProgress db p t1).1 p t2).1.recent =
      (updateWatchProgress db p t1).1.recent) ∧
    ((updateWatchProgress (updateWatchProgress db p t1).1 p t2).1.users =
      (updateWatchProgress db p t1).1.users) ∧
    ((updateWatchProgress (updateWatchProgress db p t1).1 p t2).1.watchProgress.length =
      (updateWatchProgress db p t1).1.watchProgress.length) ∧
    (∃ r ∈ (updateWatchProgress (updateWatchProgress db p t1).1 p t2).1.watchProgress,
      r.userId = p.userId ∧ r.animeId = p.animeId ∧ r.lastWatchDate = t2) := by
  set db1 := (updateWatchProgress db p t1).1 with hdb1
  obtain ⟨u1, hu1⟩ : ∃ u1, alookup db1.users p.userId = some u1 := by
    rcases updateWatchProgress_users t1 hu with h | h
    · refine ⟨singleStepAward u 100, ?_⟩
      rw [hdb1, h, awardExp, alookup_updateUser, hu]
      rfl
    · refine ⟨u, ?_⟩
      rw [hdb1, h]
      exact hu
  have hwp1 : db1.watchProgress = upsertWP db.watchProgress p.userId p.animeId
      p.episodesWatched p.totalEpisodes (effectiveStatus p) (progressTitle db p)
      (progressImage db p) t1 := updateWatchProgress_wp t1 hu
  obtain ⟨r, hf, hru, hra, hrs, hre⟩ := findWP_upsertWP db.watchProgress p.userId p.animeId
      p.episodesWatched p.totalEpisodes (effectiveStatus p) (progressTitle db p)
      (progressImage db p) t1
  rw [← hwp1] at hf
  have hnc : ¬ specCascadeCondition db1 p := by
    unfold specCascadeCondition
    simp only [hf, Option.map_some']
    rintro (⟨h1, h2⟩ | hlt)
    · exact h1 (by rw [hrs, h2])
    · rw [hre] at hlt
      exact lt_irrefl _ hlt
  obtain ⟨hrec, husers⟩ := (updateWatchProgress_cascadeSpec db1 p t2 u1 hu1).2 hnc
  refine ⟨hrec, husers, ?_, ?_⟩
  · rw [updateWatchProgress_wp t2 hu1]
    exact upsertWP_length_of_found hf _ _ _ _ _ _
  · rw [updateWatchProgress_wp t2 hu1]
    obtain ⟨r2, hf2, h2u, h2a, _, _⟩ := findWP_upsertWP db1.watchProgress p.userId p.animeId
      p.episodesWatched p.totalEpisodes (effectiveStatus p) (progressTitle db1 p)
      (progressImage db1 p) t2
    have hmem := List.mem_of_find?_eq_some hf2
    exact ⟨r2, hmem, h2u, h2a,
      (upsertWP_all _ _ _ _ _ _ _ _ _ r2 hmem h2u h2a).2.2⟩

/-- Witness for C6 (amended): the concrete double upsert leaves the recent
table of the first call untouched. -/
theorem watchProgress_repeat_noCascade_witness :
    alookup (DB.mk [("u", ⟨1, 0⟩)] [] [] [] [] []).users "u" = some ⟨1, 0⟩ ∧
    ((updateWatchProgress
        (updateWatchProgress (DB.mk [("u", ⟨1, 0⟩)] [] [] [] [] [])
          ⟨"u", "a", some "T", none, Status.watching, 3, none⟩ 5).1
        ⟨"u", "a", some "T", none, Status.watching, 3, none⟩ 9).1.recent =
      (updateWatchProgress (DB.mk [("u", ⟨1, 0⟩)] [] [] [] [] [])
        ⟨"u", "a", some "T", none, Status.watching, 3, none⟩ 5).1.recent) :=
  ⟨by decide,
    (watchProgress_repeat_noCascade (DB.mk [("u", ⟨1, 0⟩)] [] [] [] [] [])
      ⟨"u", "a", some "T", none, Status.watching, 3, none⟩ 5 9 ⟨1, 0⟩ (by decide)).1⟩

/-- Claim C7: the first unlock of an achievement inserts a unique
`(user, achievement)` row and immediately applies the reward with the
single-step rule; a second unlock of the same achievement fails with the
internal/conflict error from the uniqueness constraint, leaving the state
unchanged, so the reward is applied exactly once across both calls. -/
theorem unlockAchievement_unique_once (db : DB) (uid : String) (aid : Nat)
    (L E N : Nat)
    (hu : alookup db.users uid = some ⟨L, E⟩)
    (ha : alookup db.achievements aid = some N)
    (hn : db.userAchievements.any (fun r => r.1 = uid && r.2 = aid) = false) :
    ∃ db' : DB,
      unlockAchievement db uid aid = (db', .ok ⟨N⟩) ∧
      alookup db'.users uid = some (singleStepAward ⟨L, E⟩ N) ∧
      (singleStepAward ⟨L, E⟩ N).exp = E + N ∧
      db'.userAchievements.countP (fun r => r.1 = uid && r.2 = aid) = 1 ∧
      unlockAchievement db' uid aid = (db', .error .internal) := by
  refine ⟨({ db with
      userAchievements := db.userAchievements ++ [(uid, aid)]
      users := awardExp db.users uid N }), ?_, ?_, rfl, ?_, ?_⟩
  · simp only [unlockAchievement, hn, ha]
    rfl
  · rw [awardExp, alookup_updateUser, hu]
    rfl
  · rw [List.countP_append]
    have h0 : db.userAchievements.countP (fun r => r.1 = uid && r.2 = aid) = 0 :=
      List.countP_eq_zero.mpr (List.any_eq_false.mp hn)
    rw [h0]
    simp
  · have hin : ((db.userAchievements ++ [(uid, aid)]).any
        (fun r => r.1 = uid && r.2 = aid)) = true := by
      rw [List.any_append]
      simp
    simp only [unlockAchievement, hin]
    rfl

/-- Witness for C7: achievement 7 worth 100 exp unlocked by a level-1 user
with 950 exp. -/
theorem unlockAchievement_unique_once_witness :
    alookup (DB.mk [("u", ⟨1, 950⟩)] [] [] [] [(7, 100)] []).users "u" = some ⟨1, 950⟩ ∧
    alookup (DB.mk [("u", ⟨1, 950⟩)] [] [] [] [(7, 100)] []).achievements 7 = some 100 ∧
    (DB.mk [("u", ⟨1, 950⟩)] [] [] [] [(7, 100)] []).userAchievements.any
      (fun r => r.1 = "u" && r.2 = 7) = false ∧
    ∃ db' : DB,
      unlockAchievement (DB.mk [("u", ⟨1, 950⟩)] [] [] [] [(7, 100)] []) "u" 7 =
        (db', .ok ⟨100⟩) ∧
      alookup db'.users "u" = some (singleStepAward ⟨1, 950⟩ 100) ∧
      (singleStepAward ⟨1, 950⟩ 100).exp = 950 + 100 ∧
      db'.userAchievements.countP (fun r => r.1 = "u" && r.2 = 7) = 1 ∧
      unlockAchievement db' "u" 7 = (db', .error .internal) :=
  ⟨by decide, by decide, by decide,
    unlockAchievement_unique_once (DB.mk [("u", ⟨1, 950⟩)] [] [] [] [(7, 100)] [])
      "u" 7 1 950 100 (by decide) (by decide) (by decide)⟩

/-- Claim C8: a favorites "remove" call by an existing user on a
`(user, anime)` pair with no favorites row fails with Not-Found on both
`POST /favorites/{user_id}` and `POST /favorites/{user_id}/manage`, and the
favorites table is left unchanged (the returned state is the input state). -/
theorem favorites_remove_missing_notFound (db : DB) (uid : String) (d : FavIn)
    (now : Nat) (u : User)
    (hu : alookup db.users uid = some u)
    (hact : d.action = "remove")
    (hno : db.favorites.countP (fun r => favMatch uid d.animeId r) = 0) :
    updateFavorites db uid d now = (db, .error .notFound) ∧
    manageFavorites db uid d now = (db, .error .notFound) := by
  constructor
  · simp only [updateFavorites, hu, hact]
    simp [hno]
  · simp only [manageFavorites, hu, hact]
    simp [hno]

/-- Witness for C8: user "u" removing anime "a" while only anime "b" is
favorited. -/
theorem favorites_remove_missing_notFound_witness :
    alookup (DB.mk [("u", ⟨1, 0⟩)] [] [] [⟨"u", "b", some "B", none, 2⟩] [] []).users "u" =
      some ⟨1, 0⟩ ∧
    (FavIn.mk "a" "remove" none none).action = "remove" ∧
    (DB.mk [("u", ⟨1, 0⟩)] [] [] [⟨"u", "b", some "B", none, 2⟩] [] []).favorites.countP
      (fun r => favMatch "u" (FavIn.mk "a" "remove" none none).animeId r) = 0 ∧
    (updateFavorites (DB.mk [("u", ⟨1, 0⟩)] [] [] [⟨"u", "b", some "B", none, 2⟩] [] [])
        "u" (FavIn.mk "a" "remove" none none) 9 =
      ((DB.mk [("u", ⟨1, 0⟩)] [] [] [⟨"u", "b", some "B", none, 2⟩] [] []),
        .error .notFound) ∧
      manageFavorites (DB.mk [("u", ⟨1, 0⟩)] [] [] [⟨"u", "b", some "B", none, 2⟩] [] [])
        "u" (FavIn.mk "a" "remove" none none) 9 =
      ((DB.mk [("u", ⟨1, 0⟩)] [] [] [⟨"u", "b", some "B", none, 2⟩] [] []),
        .error .notFound)) :=
  ⟨by decide, by decide, by decide,
    favorites_remove_missing_notFound
      (DB.mk [("u", ⟨1, 0⟩)] [] [] [⟨"u", "b", some "B", none, 2⟩] [] [])
      "u" (FavIn.mk "a" "remove" none none) 9 ⟨1, 0⟩ (by decide) (by decide) (by decide)⟩

/-- Claim C9: `GET /watch-progress/{user_id}` with an unknown user does not
signal Not-Found: it returns the normal payload with empty completed and
in-progress lists and all-zero stats. -/
theorem getWatchProgress_unknownUser_empty (db : DB) (uid : String)
    (h : alookup db.users uid = none) :
    getUserWatchProgress db uid = ⟨[], [], ⟨0, 0, 0, 0, 0⟩⟩ := by
  simp only [getUserWatchProgress, h]

/-- Witness for C9: unknown user "v". -/
theorem getWatchProgress_unknownUser_empty_witness :
    alookup (DB.mk [("u", ⟨1, 0⟩)] [] [] [] [] []).users "v" = none ∧
    getUserWatchProgress (DB.mk [("u", ⟨1, 0⟩)] [] [] [] [] []) "v" =
      ⟨[], [], ⟨0, 0, 0, 0, 0⟩⟩ :=
  ⟨by decide, getWatchProgress_unknownUser_empty _ "v" (by decide)⟩

/-- Claim C10: every successful `POST /user/{user_id}/watch-episode` call
leaves the user with `exp < 1000 * level`: the returned exp is strictly below
the returned `next_level_exp`, which equals `1000 *` the returned level, and
the stored user state is exactly the returned pair. -/
theorem watchEpisode_exp_below_threshold (db : DB) (uid : String) (u : User)
    (hu : alookup db.users uid = some u) :
    ∃ resp : EpisodeResp,
      (watchEpisode db uid).2 = .ok resp ∧
      resp.exp < resp.nextLevelExp ∧
      resp.nextLevelExp = 1000 * resp.level ∧
      alookup (watchEpisode db uid).1.users uid = some ⟨resp.level, resp.exp⟩ := by
  refine ⟨⟨(watchEpisodeCalc u.level u.exp).1, (watchEpisodeCalc u.level u.exp).2,
    1000 * (watchEpisodeCalc u.level u.exp).1⟩, ?_, ?_, rfl, ?_⟩
  · simp only [watchEpisode, hu]
  · exact expLoop_snd_lt u.level (u.exp + 100)
  · simp only [watchEpisode, hu]
    rw [alookup_updateUser, hu]
    rfl

/-- Witness for C10: a level-1 user with 2600 exp gains 100 and rolls over to
level 3 with 700 exp, below the 3000 threshold. -/
theorem watchEpisode_exp_below_threshold_witness :
    alookup (DB.mk [("w", ⟨1, 2600⟩)] [] [] [] [] []).users "w" = some ⟨1, 2600⟩ ∧
    (∃ resp : EpisodeResp,
      (watchEpisode (DB.mk [("w", ⟨1, 2600⟩)] [] [] [] [] []) "w").2 = .ok resp ∧
      resp.exp < resp.nextLevelExp ∧
      resp.nextLevelExp = 1000 * resp.level ∧
      alookup (watchEpisode (DB.mk [("w", ⟨1, 2600⟩)] [] [] [] [] []) "w").1.users "w" =
        some ⟨resp.level, resp.exp⟩) :=
  ⟨by decide, watchEpisode_exp_below_threshold _ "w" ⟨1, 2600⟩ (by decide)⟩

end AnimeBackend
